import Mathlib

/-!
Verification development for the neural_net_robustness data-acquisition
utility.  The definitions below are a shallow embedding of the two source
files:

* weights/__init__.py  — the weight-tree loader: load_weights, walk and
  walk_key_chain over a nested dictionary-like structure (h5py files are
  modelled as finite labelled trees whose leaves carry the stored arrays).
* download_data.py — the dataset acquisition pipeline: the download
  primitives (__download_if_needed, __download_from_url), the per-split
  orchestrator (__download_dataset) and the ILSVRC2012 truths converter
  (__convert_imagenet2012_truths), together with the dataset section of
  the __main__ block.

Filesystem state is modelled explicitly: a download target is a record of
the final file and its filepart sibling; a dataset split is a record of
the three on-disk artifacts the code tests for (ground_truths.p, the
images directory, the staging directory).  Python exceptions are modelled
with Except; a Python assert becomes an explicit error constructor
carrying the data that the assertion message interpolates.
-/

/- ===================== weights/__init__.py ===================== -/

/-- A node of the hierarchical weight file consumed by the loader: either a
leaf value (an h5py dataset, carrying a stored array of type alpha) or a
named group of child nodes (an h5py group or the file itself, which exposes
an items() method).  The duck-typing test in the source — whether the item
has a callable items attribute — is exactly the group/leaf distinction. -/
inductive HTree (α : Type) where
  | leaf : α → HTree α
  | group : List (String × HTree α) → HTree α

mutual

/-- Embedding of walk (weights/__init__.py lines 17-25): iterates over the
entries of a dictionary-like node, extends the key chain (None stands for
the top-level call), recurses on groups and applies the collect callback to
leaves.  Returns the rebuilt nested mapping as an entry list. -/
def walk (collect : List String → α → β) (key_chain : Option (List String)) :
    List (String × HTree α) → List (String × HTree β)
  | [] => []
  | (key, item) :: rest =>
    (key, walkItem collect ((key_chain.getD []) ++ [key]) item) ::
      walk collect key_chain rest

/-- The body of the loop in walk for one entry: if the item exposes nested
entries it is an internal node (recurse with the extended key chain),
otherwise it is a leaf (apply collect to the key chain and the item). -/
def walkItem (collect : List String → α → β) (sub_key_chain : List String) :
    HTree α → HTree β
  | .group entries => .group (walk collect (some sub_key_chain) entries)
  | .leaf value => .leaf (collect sub_key_chain value)

end

/-- Result shape of load_weights: a single nested mapping when exactly one
name was requested, otherwise a list of nested mappings. -/
inductive LoadResult (β : Type) where
  | single : List (String × HTree β) → LoadResult β
  | many : List (List (String × HTree β)) → LoadResult β

/-- The Python IndexError raised by indexing an empty list. -/
inductive LoadErr where
  | indexError

/-- Embedding of load_weights (weights/__init__.py lines 7-14).  The h5py
file opened for each requested name is modelled by fileContents, and the
per-leaf conversion np.array by npArray.  The source builds the list
weights by walking each file and then returns
weights if len(weights) > 1 else weights[0]; indexing weights[0] on an
empty list raises IndexError. -/
def load_weights (fileContents : String → List (String × HTree α))
    (npArray : α → β) (weights_names : List String) :
    Except LoadErr (LoadResult β) :=
  let weights := weights_names.map fun weights_name =>
    walk (fun _ x => npArray x) none (fileContents weights_name)
  if weights.length > 1 then .ok (.many weights)
  else
    match weights with
    | [] => .error .indexError
    | w :: _ => .ok (.single w)

/-- Python dictionary lookup on the entry list of a group (first matching
key; keys of a Python dict are unique). -/
def lookupEntry : List (String × HTree α) → String → Option (HTree α)
  | [], _ => none
  | (k, t) :: rest, key => if k == key then some t else lookupEntry rest key

/-- Manual traversal of a nested mapping along a key path: the reference
semantics for resolving a path, following one key per level; returns none
if a key is missing or a leaf is reached before the path is exhausted. -/
def getPath : HTree α → List String → Option (HTree α)
  | t, [] => some t
  | .leaf _, _ :: _ => none
  | .group entries, key :: keys =>
    match lookupEntry entries key with
    | some t => getPath t keys
    | none => none

/-- The two Python exceptions that subscripting d[k] can raise while
resolving a key chain: KeyError when d is a dictionary-like node without
the key, TypeError when d is a leaf value that is not subscriptable by a
string key. -/
inductive LookupErr where
  | keyError : String → LookupErr
  | typeError : LookupErr

/-- One subscript step d[k] of the reduce lambda in walk_key_chain: on a
group, dictionary lookup (KeyError if the key is absent); on a leaf,
TypeError. -/
def getItemW : HTree β → String → Except LookupErr (HTree β)
  | .group entries, key =>
    match lookupEntry entries key with
    | some t => .ok t
    | none => .error (.keyError key)
  | .leaf _, _ => .error .typeError

/-- Embedding of walk_key_chain (weights/__init__.py lines 28-43):
reduce(lambda d, k: d[k], key_chain, dictionary), with the first raised
exception aborting the fold. -/
def walk_key_chain (dictionary : HTree β) (key_chain : List String) :
    Except LookupErr (HTree β) :=
  key_chain.foldl (fun acc k => acc.bind fun d => getItemW d k) (.ok dictionary)

/-- Whether some key of the path is absent at its level: traversal through
groups succeeds for a prefix and then the next key is missing from the
group at that level.  Paths that run into a leaf are not key-absence. -/
def keyAbsent : HTree β → List String → Bool
  | _, [] => false
  | .leaf _, _ :: _ => false
  | .group entries, key :: keys =>
    match lookupEntry entries key with
    | none => true
    | some t => keyAbsent t keys

/-- Whether a lookup outcome is a KeyError (a key-not-found failure). -/
def isKeyErr : Except LookupErr (HTree β) → Bool
  | .error (.keyError _) => true
  | _ => false

mutual

/-- Key structure of a tree with leaf values erased: two trees have the
same keys at every level of the hierarchy iff their shapes are equal. -/
def shapeItem : HTree α → HTree Unit
  | .leaf _ => .leaf ()
  | .group entries => .group (shape entries)

/-- Key structure of an entry list with leaf values erased. -/
def shape : List (String × HTree α) → List (String × HTree Unit)
  | [] => []
  | (k, t) :: rest => (k, shapeItem t) :: shape rest

end

mutual

/-- Nesting depth of a node measured in dictionary levels: a leaf has
depth 0, a group is one level deeper than its deepest child. -/
def dictDepth : HTree α → Nat
  | .leaf _ => 0
  | .group entries => 1 + dictDepthL entries

/-- Deepest dictionary nesting among the children of an entry list. -/
def dictDepthL : List (String × HTree α) → Nat
  | [] => 0
  | (_, t) :: rest => max (dictDepth t) (dictDepthL rest)

end

/- ===================== download_data.py: download primitives ===================== -/

/-- Contents of a file on disk: fully written, or cut off mid-transfer. -/
inductive FileVal where
  | incomplete : FileVal
  | full : FileVal
deriving DecidableEq

/-- The slice of the filesystem that one download touches: the final local
path and its temporary filepart sibling; none means the path is absent. -/
structure DlState where
  final : Option FileVal
  filepart : Option FileVal
deriving DecidableEq

/-- The temporary sibling name used by __download_from_url
(download_data.py line 36): the final local path with the fixed suffix
.filepart appended by string formatting. -/
def filepartPath (local_path : String) : String := local_path ++ ".filepart"

/-- The filesystem states passed through by __download_from_url
(download_data.py lines 35-38).  On a completed transfer: the filepart
sibling is written (incompletely, then fully by urlretrieve), then
shutil.move renames it onto the final path.  On an interrupted transfer:
urlretrieve aborts leaving the partially written filepart sibling, the
move never runs and the final path is untouched. -/
def dlTrace (transferOk : Bool) (st : DlState) : List DlState :=
  if transferOk then
    [st,
     { st with filepart := some .incomplete },
     { st with filepart := some .full },
     { final := some .full, filepart := none }]
  else
    [st, { st with filepart := some .incomplete }]

/-- End state of __download_from_url together with whether it succeeded:
the last state of dlTrace. -/
def dlRun (transferOk : Bool) (st : DlState) : DlState × Bool :=
  if transferOk then ({ final := some .full, filepart := none }, true)
  else ({ st with filepart := some .incomplete }, false)

/-- Embedding of __download_if_needed (download_data.py lines 25-32):
download_needed is the absence of the final local path (the filepart
sibling is never consulted); when needed, the retrieve callback runs.
Returns the resulting filesystem state and download_needed. -/
def downloadIfNeeded (retrieve : DlState → DlState) (st : DlState) :
    DlState × Bool :=
  if st.final.isSome then (st, false) else (retrieve st, true)

/- ===================== download_data.py: dataset orchestrator ===================== -/

/-- A ground-truth mapping, as built by the truth converters: a Python
dictionary from image filename to label, modelled as an entry list with
unique keys in insertion order. -/
def TruthsMap : Type := List (String × String)

/-- The work the orchestrator can perform for a split, in order: retrieve
covers downloading and extracting the archive (__retrieve_tarred_content),
convertT the truths conversion and pickling, collectI collecting, checking
and moving the images and deleting the staging directory. -/
inductive PipeAction where
  | retrieve : PipeAction
  | convertT : PipeAction
  | collectI : PipeAction
deriving DecidableEq

/-- The failures __download_dataset can raise per split, carrying the data
its assertion messages interpolate.  unboundLocal models the Python
UnboundLocalError raised when a local variable is read before any
assignment to it has executed. -/
inductive RunError where
  | unboundLocal : String → RunError
  | noTruthsConverted : RunError
  | noImagesFound : RunError
  | countMismatch : Nat → Nat → RunError
  | setMismatch : List String → List String → RunError
deriving DecidableEq

/-- Whether a failure message names specific filenames (only the
set-difference assertion at download_data.py lines 97-99 does; the count
assertion at lines 93-94 interpolates only the two sizes). -/
def mentionsFilenames : RunError → Bool
  | .setMismatch _ _ => true
  | _ => false

/-- The on-disk artifacts of one dataset split that __download_dataset
tests for (download_data.py lines 66-73): the pickled ground-truths file,
the canonical images directory (contents: the moved image filenames), and
the _compressed staging directory (contents of type C, the extracted
archive). -/
structure SplitState (C : Type) where
  truthsFile : Option TruthsMap
  imagesDir : Option (List String)
  compressedDir : Option C

/-- The truths stage (download_data.py lines 76-84): skipped when the
truths file already exists (the truths local variable keeps whatever
binding it had); otherwise the convert_truths callback runs on the staging
contents, an empty result is the fatal assertion "No truths converted",
and the mapping is pickled to the truths file and bound to the truths
local variable. -/
def truthsStage (convert_truths : C → String → TruthsMap) (data_type : String)
    (content : C) (st : SplitState C) (truthsVar : Option TruthsMap)
    (acts : List PipeAction) :
    Except RunError (SplitState C × Option TruthsMap × List PipeAction) :=
  if st.truthsFile.isSome then .ok (st, truthsVar, acts)
  else
    let truths := convert_truths content data_type
    if truths.isEmpty then .error .noTruthsConverted
    else .ok ({ st with truthsFile := some truths }, some truths,
              acts ++ [.convertT])

/-- The images stage (download_data.py lines 86-104): skipped when the
images directory already exists; otherwise the collect_image_files
callback runs, an empty list is the fatal assertion "No images found",
then the truths local variable is read — an UnboundLocalError if no
assignment to it has executed — and the count assertion (sizes only) runs
before the set-difference assertion (which names the filenames found only
in one side).  On success the images are moved into the images directory
and the staging directory is deleted. -/
def imagesStage (collect_image_files : C → String × List String) (content : C)
    (st : SplitState C) (truthsVar : Option TruthsMap) (acts : List PipeAction) :
    Except RunError (SplitState C × Option TruthsMap × List PipeAction) :=
  if st.imagesDir.isSome then .ok (st, truthsVar, acts)
  else
    let image_files := (collect_image_files content).2
    if image_files.isEmpty then .error .noImagesFound
    else
      match truthsVar with
      | none => .error (.unboundLocal "truths")
      | some truths =>
        if image_files.length == truths.length then
          let images_truths_diffs :=
            image_files.filter fun f => !((truths.map Prod.fst).contains f)
          let truths_images_diffs :=
            (truths.map Prod.fst).filter fun k => !(image_files.contains k)
          if images_truths_diffs.isEmpty && truths_images_diffs.isEmpty then
            .ok ({ st with imagesDir := some image_files,
                           compressedDir := none },
                 truthsVar, acts ++ [.collectI])
          else .error (.setMismatch images_truths_diffs truths_images_diffs)
        else .error (.countMismatch image_files.length truths.length)

/-- The archive, truths and images stages run in order on the state after
the initial both-exist skip check. -/
def processStages (convert_truths : C → String → TruthsMap)
    (collect_image_files : C → String × List String) (data_type : String)
    (content : C) (st : SplitState C) (truthsVar : Option TruthsMap)
    (acts : List PipeAction) :
    Except RunError (SplitState C × Option TruthsMap × List PipeAction) :=
  (truthsStage convert_truths data_type content st truthsVar acts).bind
    fun r => imagesStage collect_image_files content r.1 r.2.1 r.2.2

/-- Embedding of one iteration of the per-split loop of __download_dataset
(download_data.py lines 65-104).  First the skip check: if both the truths
file and the images directory exist the split is done and nothing changes.
Otherwise __retrieve_tarred_content ensures the staging directory exists
(skipped without verification if present, else the archive is downloaded
and extracted — the retrieve action), and the truths and images stages
run.  truthsVar is the value of the function-local truths variable before
this iteration (none at the start of the run). -/
def processSplit (convert_truths : C → String → TruthsMap)
    (collect_image_files : C → String × List String) (data_type : String)
    (remote : C) (st : SplitState C) (truthsVar : Option TruthsMap) :
    Except RunError (SplitState C × Option TruthsMap × List PipeAction) :=
  if st.truthsFile.isSome && st.imagesDir.isSome then .ok (st, truthsVar, [])
  else
    match st.compressedDir with
    | some content =>
      processStages convert_truths collect_image_files data_type content st
        truthsVar []
    | none =>
      processStages convert_truths collect_image_files data_type remote
        { st with compressedDir := some remote } truthsVar [.retrieve]

/-- One declared split of a dataset: its name, the contents the remote
archive would extract to, and its current on-disk state. -/
structure SplitItem (C : Type) where
  data_type : String
  remote : C
  state : SplitState C

/-- The whole per-dataset loop of __download_dataset over its declared
splits, threading the function-local truths variable from one iteration to
the next; the first raised exception aborts the run.  Returns the final
on-disk states and the concatenated list of performed actions. -/
def runSplits (convert_truths : C → String → TruthsMap)
    (collect_image_files : C → String × List String) :
    List (SplitItem C) → Option TruthsMap →
    Except RunError (List (SplitItem C) × List PipeAction)
  | [], _ => .ok ([], [])
  | it :: rest, truthsVar =>
    (processSplit convert_truths collect_image_files it.data_type it.remote
        it.state truthsVar).bind fun r =>
      (runSplits convert_truths collect_image_files rest r.2.1).bind fun rr =>
        .ok ({ it with state := r.1 } :: rr.1, r.2.2 ++ rr.2)

/- ===================== download_data.py: ILSVRC2012 truths converter ===================== -/

/-- Python str.split with a single-character separator: splits at every
occurrence of the separator, keeping empty pieces. -/
def splitChar (sep : Char) : List Char → List (List Char)
  | [] => [[]]
  | c :: cs =>
    match splitChar sep cs with
    | [] => [[]]
    | w :: ws => if c = sep then [] :: w :: ws else (c :: w) :: ws

/-- line.split(" ") on a string. -/
def pySplitSpace (s : String) : List String :=
  (splitChar ' ' s.data).map fun cs => String.mk cs

/-- Python dictionary assignment truths[filename] = truth on an entry
list: overwrite in place when the key exists, else append. -/
def dictInsert (d : List (String × String)) (key val : String) :
    List (String × String) :=
  if d.any fun kv => kv.1 == key then
    d.map fun kv => if kv.1 == key then (key, val) else kv
  else d ++ [(key, val)]

/-- The failures of __convert_imagenet2012_truths: a failed defensive
assertion (dataset or split name), or the ValueError raised when
unpacking line.split(" ") into two variables does not get exactly two
pieces. -/
inductive ConvErr where
  | assertionError : String → ConvErr
  | valueError : ConvErr
deriving DecidableEq

/-- Embedding of __convert_imagenet2012_truths (download_data.py lines
135-147), given the lines of the split-named annotation text file exactly
as readlines returns them (trailing newline characters included).  After
the dataset-name and split-name assertions, each line is split on single
spaces, unpacked into filename and truth — a ValueError unless exactly two
pieces — and truths[filename] = truth is recorded.  Nothing strips the
line: the truth value keeps its trailing newline. -/
def convert_imagenet2012_truths (dataset : String) (data_type : String)
    (annotation_lines : List String) : Except ConvErr TruthsMap :=
  if dataset == "ILSVRC2012" then
    if data_type == "train" || data_type == "val" || data_type == "test" then
      annotation_lines.foldl
        (fun acc line => acc.bind fun truths =>
          match pySplitSpace line with
          | [filename, truth] => .ok (dictInsert truths filename truth)
          | _ => .error .valueError)
        (.ok [])
    else .error (.assertionError "data_type")
  else .error (.assertionError "dataset")

/- ===================== download_data.py: __main__ dataset section ===================== -/

/-- Outcome of the ILSVRC2012 section of the __main__ block. -/
inductive MainOutcome where
  | downloadedDataset : MainOutcome
  | skippedWithWarning : MainOutcome
deriving DecidableEq

/-- The FileNotFoundError raised by open() on an absent path. -/
inductive MainError where
  | fileNotFoundError : MainError
deriving DecidableEq

/-- Embedding of the ILSVRC2012 dataset section of the __main__ block
(download_data.py lines 169-178).  urlsFile is the pickled contents of
ILSVRC2012_image_urls.p when the file exists, none when it is absent:
pickle.load(open(path)) raises FileNotFoundError on an absent file before
any emptiness test runs; a present-but-empty mapping is falsy, so the
dataset is skipped with the printed copyright warning; otherwise
__download_dataset runs. -/
def imagenetSection (urlsFile : Option (List (String × String))) :
    Except MainError MainOutcome :=
  match urlsFile with
  | none => .error .fileNotFoundError
  | some imagenet_urls =>
    if imagenet_urls.isEmpty then .ok .skippedWithWarning
    else .ok .downloadedDataset

/- ===================== helper lemmas: weight tree ===================== -/

theorem foldl_lookup_error (key_chain : List String) (e : LookupErr) :
    key_chain.foldl (fun acc k => acc.bind fun d => getItemW d k)
      (Except.error e : Except LookupErr (HTree β)) = .error e := by
  induction key_chain with
  | nil => rfl
  | cons k ks ih => exact ih

theorem walk_key_chain_cons (d : HTree β) (k : String) (ks : List String) :
    walk_key_chain d (k :: ks) =
      match getItemW d k with
      | .ok d2 => walk_key_chain d2 ks
      | .error e => .error e := by
  have hstep : ((Except.ok d : Except LookupErr (HTree β)).bind
      fun x => getItemW x k) = getItemW d k := rfl
  unfold walk_key_chain
  simp only [List.foldl_cons, hstep]
  cases h : getItemW d k with
  | ok d2 => rfl
  | error e => exact foldl_lookup_error ks e

mutual

theorem shape_walkItem (collect : List String → α → β) (sub : List String)
    (t : HTree α) : shapeItem (walkItem collect sub t) = shapeItem t := by
  cases t with
  | leaf a => simp [walkItem, shapeItem]
  | group entries => simp [walkItem, shapeItem, shape_walk]

theorem shape_walk (collect : List String → α → β) (kc : Option (List String))
    (entries : List (String × HTree α)) :
    shape (walk collect kc entries) = shape entries := by
  cases entries with
  | nil => simp [walk, shape]
  | cons e rest =>
    obtain ⟨k, t⟩ := e
    simp [walk, shape, shape_walkItem, shape_walk]

end

theorem walk_none_eq_some_nil (collect : List String → α → β)
    (entries : List (String × HTree α)) :
    walk collect none entries = walk collect (some []) entries := by
  induction entries with
  | nil => rfl
  | cons e rest ih =>
    obtain ⟨k, t⟩ := e
    simp [walk, ih]

theorem lookupEntry_walk (collect : List String → α → β)
    (kc : Option (List String)) (key : String)
    (entries : List (String × HTree α)) :
    lookupEntry (walk collect kc entries) key =
      (lookupEntry entries key).map (walkItem collect ((kc.getD []) ++ [key])) := by
  induction entries with
  | nil => rfl
  | cons e rest ih =>
    obtain ⟨k, t⟩ := e
    cases hbeq : (k == key) with
    | true =>
      have hk : k = key := by simpa using hbeq
      subst hk
      simp [walk, lookupEntry, hbeq]
    | false => simp [walk, lookupEntry, hbeq, ih]

theorem getPath_walkItem (collect : List String → α → β) :
    ∀ (path : List String) (t : HTree α) (chain : List String) (a : α),
      getPath t path = some (.leaf a) →
      getPath (walkItem collect chain t) path =
        some (.leaf (collect (chain ++ path) a)) := by
  intro path
  induction path with
  | nil =>
    intro t chain a h
    simp only [getPath, Option.some.injEq] at h
    subst h
    simp [walkItem, getPath]
  | cons key keys ih =>
    intro t chain a h
    cases t with
    | leaf b => simp [getPath] at h
    | group entries =>
      cases hle : lookupEntry entries key with
      | none => simp [getPath, hle] at h
      | some t2 =>
        have h2 : getPath t2 keys = some (.leaf a) := by
          simpa [getPath, hle] using h
        have step := ih t2 (chain ++ [key]) a h2
        simp only [walkItem, getPath, lookupEntry_walk, hle, Option.map,
          Option.getD]
        simpa [List.append_assoc] using step

/- ===================== claim theorems: weight tree ===================== -/

/-- Claim C8: for every nested structure of depth at least 2 whose internal
nodes expose nested entries and whose leaves do not, walk returns a nested
mapping with identical keys at every level of the hierarchy, recursing on
internal nodes and replacing each leaf by exactly the supplied per-leaf
transform applied to its key chain and value. -/
theorem c8_walk_roundtrip (collect : List String → α → β)
    (entries : List (String × HTree α))
    (hdepth : 2 ≤ dictDepth (HTree.group entries)) :
    shape (walk collect none entries) = shape entries ∧
    ∀ (path : List String) (a : α),
      getPath (HTree.group entries) path = some (.leaf a) →
      getPath (HTree.group (walk collect none entries)) path =
        some (.leaf (collect path a)) := by
  constructor
  · exact shape_walk collect none entries
  · intro path a hp
    have step := getPath_walkItem collect path (HTree.group entries) [] a hp
    rw [walk_none_eq_some_nil]
    simpa [walkItem] using step

/-- Witness for C8 at a concrete depth-2 structure with a concrete per-leaf
transform. -/
theorem c8_walk_roundtrip_witness :
    2 ≤ dictDepth (HTree.group
      [("conv1", HTree.group [("weights", HTree.leaf (7 : Nat))])]) ∧
    shape (walk (fun (p : List String) (a : Nat) => a + p.length) none
        [("conv1", HTree.group [("weights", HTree.leaf 7)])]) =
      shape [("conv1", HTree.group [("weights", HTree.leaf (7 : Nat))])] ∧
    getPath (HTree.group (walk
        (fun (p : List String) (a : Nat) => a + p.length) none
        [("conv1", HTree.group [("weights", HTree.leaf 7)])]))
        ["conv1", "weights"] =
      some (HTree.leaf ((fun (p : List String) (a : Nat) => a + p.length)
        ["conv1", "weights"] 7)) :=
  ⟨by decide,
   (c8_walk_roundtrip (fun p a => a + p.length)
     [("conv1", HTree.group [("weights", HTree.leaf 7)])] (by decide)).1,
   (c8_walk_roundtrip (fun p a => a + p.length)
     [("conv1", HTree.group [("weights", HTree.leaf 7)])] (by decide)).2
     ["conv1", "weights"] 7 rfl⟩

/-- Claim C9: for every nested mapping and key path, walk_key_chain
resolves the path by sequential key indexing and returns the same object
obtained by manual traversal; it fails with a key-not-found error if and
only if some key in the path is absent at its level. -/
theorem c9_walk_key_chain {β : Type} (d : HTree β) (key_chain : List String) :
    (∀ v, walk_key_chain d key_chain = .ok v ↔ getPath d key_chain = some v) ∧
    (isKeyErr (walk_key_chain d key_chain) = true ↔
      keyAbsent d key_chain = true) := by
  induction key_chain generalizing d with
  | nil =>
    constructor
    · intro v
      simp [walk_key_chain, getPath]
    · simp [walk_key_chain, isKeyErr, keyAbsent]
  | cons k ks ih =>
    rw [walk_key_chain_cons]
    cases d with
    | leaf b =>
      constructor
      · intro v
        simp [getItemW, getPath, isKeyErr]
      · simp [getItemW, isKeyErr, keyAbsent]
    | group entries =>
      cases hle : lookupEntry entries k with
      | none =>
        constructor
        · intro v
          simp [getItemW, hle, getPath, isKeyErr]
        · simp [getItemW, hle, isKeyErr, keyAbsent]
      | some t =>
        constructor
        · intro v
          simp only [getItemW, hle, getPath]
          exact (ih t).1 v
        · simp only [getItemW, hle, isKeyErr, keyAbsent]
          exact (ih t).2

/- ===================== helper lemmas: orchestrator ===================== -/

theorem truthsStage_ok_truthsFile {C : Type} {ct : C → String → TruthsMap}
    {dt : String} {content : C} {st : SplitState C} {tv : Option TruthsMap}
    {acts : List PipeAction}
    {r : SplitState C × Option TruthsMap × List PipeAction}
    (h : truthsStage ct dt content st tv acts = .ok r) :
    r.1.truthsFile.isSome = true := by
  simp only [truthsStage] at h
  split at h
  · next hsome =>
    simp only [Except.ok.injEq] at h
    subst h
    exact hsome
  · split at h
    · simp at h
    · simp only [Except.ok.injEq] at h
      subst h
      rfl

theorem imagesStage_ok_state {C : Type} {ci : C → String × List String}
    {content : C} {st : SplitState C} {tv : Option TruthsMap}
    {acts : List PipeAction}
    {r : SplitState C × Option TruthsMap × List PipeAction}
    (h : imagesStage ci content st tv acts = .ok r) :
    r.1.imagesDir.isSome = true ∧ r.1.truthsFile = st.truthsFile := by
  simp only [imagesStage] at h
  split at h
  · next hsome =>
    simp only [Except.ok.injEq] at h
    subst h
    exact ⟨hsome, rfl⟩
  · split at h
    · simp at h
    · split at h
      · simp at h
      · split at h
        · split at h
          · simp only [Except.ok.injEq] at h
            subst h
            exact ⟨rfl, rfl⟩
          · simp at h
        · simp at h

theorem processSplit_ok_done {C : Type} {ct : C → String → TruthsMap}
    {ci : C → String × List String} {dt : String} {remote : C}
    {st : SplitState C} {tv : Option TruthsMap}
    {r : SplitState C × Option TruthsMap × List PipeAction}
    (h : processSplit ct ci dt remote st tv = .ok r) :
    (r.1.truthsFile.isSome && r.1.imagesDir.isSome) = true := by
  unfold processSplit at h
  split at h
  · next hcond =>
    simp only [Except.ok.injEq] at h
    subst h
    exact hcond
  · have stages : ∀ (c : C) (st1 : SplitState C) (a : List PipeAction),
        processStages ct ci dt c st1 tv a = .ok r →
        (r.1.truthsFile.isSome && r.1.imagesDir.isSome) = true := by
      intro c st1 a hps
      unfold processStages at hps
      cases hts : truthsStage ct dt c st1 tv a with
      | error e =>
        rw [hts] at hps
        simp only [Except.bind] at hps
        exact Except.noConfusion hps
      | ok r1 =>
        rw [hts] at hps
        simp only [Except.bind] at hps
        have h1 := truthsStage_ok_truthsFile hts
        have h2 := imagesStage_ok_state hps
        rw [Bool.and_eq_true]
        exact ⟨h2.2 ▸ h1, h2.1⟩
    split at h
    · exact stages _ _ _ h
    · exact stages _ _ _ h

theorem processSplit_skip {C : Type} (ct : C → String → TruthsMap)
    (ci : C → String × List String) (dt : String) (remote : C)
    (st : SplitState C) (tv : Option TruthsMap)
    (h : (st.truthsFile.isSome && st.imagesDir.isSome) = true) :
    processSplit ct ci dt remote st tv = .ok (st, tv, []) := by
  unfold processSplit
  simp [h]

theorem runSplits_rerun {C : Type} (ct : C → String → TruthsMap)
    (ci : C → String × List String) :
    ∀ (items : List (SplitItem C)) (tv : Option TruthsMap)
      (items2 : List (SplitItem C)) (acts : List PipeAction),
    runSplits ct ci items tv = .ok (items2, acts) →
    ∀ tv2, runSplits ct ci items2 tv2 = .ok (items2, []) := by
  intro items
  induction items with
  | nil =>
    intro tv items2 acts h tv2
    simp only [runSplits, Except.ok.injEq, Prod.mk.injEq] at h
    rw [← h.1]
    rfl
  | cons it rest ih =>
    intro tv items2 acts h tv2
    unfold runSplits at h
    cases hp : processSplit ct ci it.data_type it.remote it.state tv with
    | error e =>
      rw [hp] at h
      simp only [Except.bind] at h
      exact Except.noConfusion h
    | ok r =>
      rw [hp] at h
      simp only [Except.bind] at h
      cases hr : runSplits ct ci rest r.2.1 with
      | error e =>
        rw [hr] at h
        simp only [Except.bind] at h
        exact Except.noConfusion h
      | ok rr =>
        rw [hr] at h
        simp only [Except.bind, Except.ok.injEq, Prod.mk.injEq] at h
        obtain ⟨h1, _⟩ := h
        subst h1
        have hdone := processSplit_ok_done hp
        have hskip := processSplit_skip ct ci it.data_type it.remote r.1 tv2 hdone
        have hrest := ih r.2.1 rr.1 rr.2 hr tv2
        unfold runSplits
        dsimp only
        rw [hskip]
        simp only [Except.bind]
        rw [hrest]
        rfl

/- ===================== claim theorems: pipeline ===================== -/

/-- Claim C4: for every target directory state left by a successful run of
the acquisition pipeline, running the pipeline a second time against the
same directories performs no network or extraction work (every skip check
triggers: the per-split both-exist check, and the final-file check of the
weight download primitive) and leaves the on-disk contents identical. -/
theorem c4_idempotent {C : Type} (ct : C → String → TruthsMap)
    (ci : C → String × List String) (items items2 : List (SplitItem C))
    (tv : Option TruthsMap) (acts : List PipeAction)
    (h : runSplits ct ci items tv = .ok (items2, acts)) :
    runSplits ct ci items2 none = .ok (items2, []) ∧
    (∀ (retrieve : DlState → DlState) (st : DlState),
      st.final.isSome = true → downloadIfNeeded retrieve st = (st, false)) := by
  refine ⟨runSplits_rerun ct ci items tv items2 acts h none, ?_⟩
  intro retrieve st hfin
  unfold downloadIfNeeded
  simp [hfin]

/-- Witness for C4: a concrete one-split run from an empty directory state,
rerun on its resulting state. -/
theorem c4_idempotent_witness :
    runSplits (fun (_ : Unit) (_ : String) => [("a.jpg", "cat")])
      (fun _ => ("src", ["a.jpg"]))
      [⟨"val", (), ⟨some [("a.jpg", "cat")], some ["a.jpg"], none⟩⟩] none =
      .ok ([⟨"val", (), ⟨some [("a.jpg", "cat")], some ["a.jpg"], none⟩⟩], []) ∧
    downloadIfNeeded id ⟨some FileVal.full, none⟩ =
      (⟨some FileVal.full, none⟩, false) :=
  ⟨(c4_idempotent (fun (_ : Unit) (_ : String) => [("a.jpg", "cat")])
      (fun _ => ("src", ["a.jpg"]))
      [⟨"val", (), ⟨none, none, none⟩⟩]
      [⟨"val", (), ⟨some [("a.jpg", "cat")], some ["a.jpg"], none⟩⟩]
      none [.retrieve, .convertT, .collectI] rfl).1,
   (c4_idempotent (fun (_ : Unit) (_ : String) => [("a.jpg", "cat")])
      (fun _ => ("src", ["a.jpg"]))
      [⟨"val", (), ⟨none, none, none⟩⟩]
      [⟨"val", (), ⟨some [("a.jpg", "cat")], some ["a.jpg"], none⟩⟩]
      none [.retrieve, .convertT, .collectI] rfl).2 id
      ⟨some FileVal.full, none⟩ rfl⟩

/-- Claim C1 (code bug): for a split whose ground-truths file already
exists while the images directory is absent, the orchestrator skips the
truths stage and is supposed to execute the images stage to completion
with no failure introduced by the skip; the code instead raises
UnboundLocalError at the image-count assertion, because skipping the
truths stage leaves the function-local truths variable unassigned.  This
theorem evaluates the embedded orchestrator at that failing input. -/
theorem c1_resume_unbound_local :
    processSplit (fun (_ : Unit) _ => [("ILSVRC2012_val_00000001.JPEG", "65")])
      (fun _ => ("datasets/ILSVRC2012/val_compressed",
        ["ILSVRC2012_val_00000001.JPEG"]))
      "val" ()
      { truthsFile := some [("ILSVRC2012_val_00000001.JPEG", "65")],
        imagesDir := none, compressedDir := some () } none
      = .error (.unboundLocal "truths") := rfl

/-- Claim C2 counterexample: removing exactly one image file before the
images stage makes the image-file set and the truths-key set differ, but
the run fails at the earlier count assertion, whose message interpolates
only the two sizes and names no filenames. -/
theorem c2_count_mismatch_cex :
    processSplit (fun (_ : Unit) _ => [("a.jpg", "cat"), ("b.jpg", "dog")])
      (fun _ => ("src", ["a.jpg"])) "val" ()
      { truthsFile := none, imagesDir := none, compressedDir := none } none
      = .error (.countMismatch 1 2) ∧
    mentionsFilenames (.countMismatch 1 2) = false := ⟨rfl, rfl⟩

/-- Claim C2 (amended): whenever the collected image filenames and the
truths keys differ as sets, the images stage fails fatally; the failure
message names the specific filenames in each one-sided difference exactly
when the two counts are equal, while a count difference (as when exactly
one image file was removed) fails at the earlier count assertion, which
reports only the two sizes. -/
theorem c2_set_mismatch {C : Type} (ct : C → String → TruthsMap)
    (ci : C → String × List String) (dt : String) (remote content : C)
    (st : SplitState C) (tv : Option TruthsMap)
    (hT : st.truthsFile = none) (hI : st.imagesDir = none)
    (hC : st.compressedDir = some content)
    (hne1 : (ct content dt).isEmpty = false)
    (hne2 : ((ci content).2).isEmpty = false)
    (hdiff : ((((ci content).2).filter
        fun f => !(((ct content dt).map Prod.fst).contains f)).isEmpty &&
      ((((ct content dt).map Prod.fst)).filter
        fun k => !(((ci content).2).contains k)).isEmpty) = false) :
    processSplit ct ci dt remote st tv =
      .error (if ((ci content).2).length == (ct content dt).length then
          .setMismatch (((ci content).2).filter
              fun f => !(((ct content dt).map Prod.fst).contains f))
            ((((ct content dt).map Prod.fst)).filter
              fun k => !(((ci content).2).contains k))
        else .countMismatch ((ci content).2).length (ct content dt).length) := by
  unfold processSplit processStages truthsStage imagesStage
  rw [hT, hI, hC]
  simp only [Option.isSome_none, Bool.false_and, Bool.false_eq_true, if_false,
    hne1, hne2, Except.bind]
  cases hlen : (((ci content).2).length == (ct content dt).length) with
  | true =>
    simp only [hlen, if_true, hdiff, Bool.false_eq_true, if_false]
  | false =>
    simp only [hlen, Bool.false_eq_true, if_false]

/-- Witness for C2 (amended) at a concrete equal-count scenario: one image
renamed, so both one-sided differences are nonempty and the failure names
them. -/
theorem c2_set_mismatch_witness :
    processSplit (fun (_ : Unit) _ => [("b.jpg", "dog")])
      (fun _ => ("src", ["a.jpg"])) "val" ()
      { truthsFile := none, imagesDir := none, compressedDir := some () }
      none = .error (.setMismatch ["a.jpg"] ["b.jpg"]) :=
  c2_set_mismatch (fun (_ : Unit) _ => [("b.jpg", "dog")])
    (fun _ => ("src", ["a.jpg"])) "val" () ()
    { truthsFile := none, imagesDir := none, compressedDir := some () }
    none rfl rfl rfl rfl rfl rfl

/-- Claim C3 counterexample: on the single annotation line
"img001.JPEG 5" followed by a newline character, the converter maps
img001.JPEG to the remainder with the trailing newline kept, and that
label differs from the claimed stripped label "5". -/
theorem c3_trailing_newline_cex :
    convert_imagenet2012_truths "ILSVRC2012" "val" ["img001.JPEG 5\n"] =
      .ok [("img001.JPEG", "5\n")] ∧
    ("5\n" : String) ≠ "5" := ⟨rfl, by decide⟩

/-- Claim C3 (amended): for every annotation line that splits on single
spaces into exactly a filename and a remainder, the converter adds an
entry mapping the filename to the remainder taken verbatim — trailing
newline and whitespace are not stripped — so the single line
"img001.JPEG 5" plus newline yields the mapping sending img001.JPEG to
"5" plus newline. -/
theorem c3_line_entry (data_type : String)
    (hdt : (data_type == "train" || data_type == "val" ||
      data_type == "test") = true)
    (pre : List String) (truths : TruthsMap)
    (hpre : convert_imagenet2012_truths "ILSVRC2012" data_type pre =
      .ok truths)
    (line filename truth : String)
    (hline : pySplitSpace line = [filename, truth]) :
    convert_imagenet2012_truths "ILSVRC2012" data_type (pre ++ [line]) =
      .ok (dictInsert truths filename truth) := by
  unfold convert_imagenet2012_truths at hpre ⊢
  simp only [hdt, if_true, beq_self_eq_true] at hpre ⊢
  rw [List.foldl_append, hpre]
  simp only [List.foldl_cons, List.foldl_nil, Except.bind, hline]

/-- Witness for C3 (amended) at the concrete line from the spec. -/
theorem c3_line_entry_witness :
    convert_imagenet2012_truths "ILSVRC2012" "val" ["img001.JPEG 5\n"] =
      .ok (dictInsert [] "img001.JPEG" "5\n") :=
  c3_line_entry "val" rfl [] [] rfl "img001.JPEG 5\n" "img001.JPEG" "5\n" rfl

/-- Claim C5: the download primitive writes only to the temporary filepart
sibling and moves it onto the final path only after the transfer succeeds,
so the final path never exists as a partially-written file at any point of
either trace; an interrupted download leaves the temporary file present
and the final file absent, and a subsequent run re-attempts the
download. -/
theorem c5_atomic_publish (st : DlState) (h : st.final = none) :
    (∀ transferOk : Bool, ∀ s ∈ dlTrace transferOk st,
      s.final ≠ some FileVal.incomplete) ∧
    ((dlRun false st).1.final = none ∧
      (dlRun false st).1.filepart = some FileVal.incomplete) ∧
    (∀ retrieve : DlState → DlState,
      (downloadIfNeeded retrieve (dlRun false st).1).2 = true) := by
  refine ⟨?_, ⟨?_, ?_⟩, ?_⟩
  · intro transferOk s hs
    cases transferOk with
    | false =>
      simp only [dlTrace, Bool.false_eq_true, if_false, List.mem_cons,
        List.not_mem_nil, or_false] at hs
      rcases hs with rfl | rfl <;> simp [h]
    | true =>
      simp only [dlTrace, if_true, List.mem_cons, List.not_mem_nil,
        or_false] at hs
      rcases hs with rfl | rfl | rfl | rfl <;> simp [h]
  · simp [dlRun, h]
  · simp [dlRun]
  · intro retrieve
    simp [downloadIfNeeded, dlRun, h]

/-- Witness for C5 at the concrete empty filesystem slice. -/
theorem c5_atomic_publish_witness :
    ((dlRun false ⟨none, none⟩).1.final = none ∧
      (dlRun false ⟨none, none⟩).1.filepart = some FileVal.incomplete) ∧
    (downloadIfNeeded id (dlRun false ⟨none, none⟩).1).2 = true ∧
    (⟨none, some FileVal.incomplete⟩ : DlState).final ≠
      some FileVal.incomplete :=
  ⟨(c5_atomic_publish ⟨none, none⟩ rfl).2.1,
   (c5_atomic_publish ⟨none, none⟩ rfl).2.2 id,
   (c5_atomic_publish ⟨none, none⟩ rfl).1 false
     ⟨none, some FileVal.incomplete⟩ (by simp [dlTrace])⟩

/-- Claim C6 counterexample: with the serialized ILSVRC2012 image-URL
mapping file absent, the program does not skip with a warning — opening
the file raises FileNotFoundError, a fatal failure. -/
theorem c6_absent_file_cex :
    imagenetSection none = .error .fileNotFoundError ∧
    (Except.error MainError.fileNotFoundError ≠
      (Except.ok MainOutcome.skippedWithWarning :
        Except MainError MainOutcome)) :=
  ⟨rfl, fun hcontra => Except.noConfusion hcontra⟩

/-- Claim C6 (amended): a present-but-empty ILSVRC2012 image-URL mapping
file causes the dataset to be skipped with a printed warning and the
program continues; an absent file instead fails fatally with
FileNotFoundError from the unconditional open; a present nonempty mapping
proceeds to download the dataset. -/
theorem c6_urls_file (urls : List (String × String)) (h : urls ≠ []) :
    imagenetSection (some []) = .ok .skippedWithWarning ∧
    imagenetSection (some urls) = .ok .downloadedDataset ∧
    imagenetSection none = .error .fileNotFoundError := by
  refine ⟨rfl, ?_, rfl⟩
  cases urls with
  | nil => exact absurd rfl h
  | cons u rest => rfl

/-- Witness for C6 (amended) at a concrete nonempty URL mapping. -/
theorem c6_urls_file_witness :
    imagenetSection (some [("train", "http://host/train.tar")]) =
      .ok .downloadedDataset ∧
    imagenetSection (some []) = .ok .skippedWithWarning ∧
    imagenetSection none = .error .fileNotFoundError :=
  ⟨(c6_urls_file [("train", "http://host/train.tar")] (by decide)).2.1,
   (c6_urls_file [("train", "http://host/train.tar")] (by decide)).1,
   (c6_urls_file [("train", "http://host/train.tar")] (by decide)).2.2⟩

/-- Claim C7 counterexample: with zero requested weight names, load_weights
does not return an empty sequence — weights[0] on the empty list raises
IndexError. -/
theorem c7_zero_names_cex :
    load_weights (fun _ => ([] : List (String × HTree Nat))) (fun x : Nat => x)
      [] = .error .indexError ∧
    (Except.error LoadErr.indexError ≠
      (Except.ok (LoadResult.many ([] : List (List (String × HTree Nat)))) :
        Except LoadErr (LoadResult Nat))) :=
  ⟨rfl, fun hcontra => Except.noConfusion hcontra⟩

/-- Claim C7 (amended): load_weights returns a single nested mapping when
exactly one name is requested, and an ordered sequence of nested mappings
matching the requested order when two or more names are requested; with
zero requested names it raises IndexError instead of returning an empty
sequence. -/
theorem c7_load_weights_arity (fileContents : String → List (String × HTree α))
    (npArray : α → β) (weights_names : List String) :
    (∀ n, weights_names = [n] →
      load_weights fileContents npArray weights_names =
        .ok (.single (walk (fun _ x => npArray x) none (fileContents n)))) ∧
    (2 ≤ weights_names.length →
      load_weights fileContents npArray weights_names =
        .ok (.many (weights_names.map fun n =>
          walk (fun _ x => npArray x) none (fileContents n)))) ∧
    (weights_names = [] →
      load_weights fileContents npArray weights_names = .error .indexError) := by
  refine ⟨?_, ?_, ?_⟩
  · intro n hn
    subst hn
    rfl
  · intro hlen
    unfold load_weights
    have hgt : weights_names.length > 1 := hlen
    simp [List.length_map, hgt]
  · intro hnil
    subst hnil
    rfl

/-- Witness for C7 (amended) at one, two and zero concrete names. -/
theorem c7_load_weights_arity_witness :
    load_weights (fun _ => ([("w", HTree.leaf 3)] : List (String × HTree Nat)))
      (fun x : Nat => x) ["alexnet"] =
      .ok (.single (walk (fun _ x => x) none [("w", HTree.leaf 3)])) ∧
    load_weights (fun _ => ([("w", HTree.leaf 3)] : List (String × HTree Nat)))
      (fun x : Nat => x) ["vgg16", "vgg19"] =
      .ok (.many (["vgg16", "vgg19"].map fun _ =>
        walk (fun _ x => x) none [("w", HTree.leaf 3)])) ∧
    load_weights (fun _ => ([("w", HTree.leaf 3)] : List (String × HTree Nat)))
      (fun x : Nat => x) [] = .error .indexError :=
  ⟨(c7_load_weights_arity (fun _ => [("w", HTree.leaf 3)]) (fun x => x)
      ["alexnet"]).1 "alexnet" rfl,
   (c7_load_weights_arity (fun _ => [("w", HTree.leaf 3)]) (fun x => x)
      ["vgg16", "vgg19"]).2.1 (by decide),
   (c7_load_weights_arity (fun _ => [("w", HTree.leaf 3)]) (fun x => x)
      []).2.2 rfl⟩

/-- Claim C10 counterexample: the temporary name is a pure function of the
final local path, so a retried invocation for the same final path targets
exactly the same temporary name as the failed one, not a distinct one. -/
theorem c10_same_filepart_cex :
    filepartPath "weights/alexnet.h5" = filepartPath "weights/alexnet.h5" ∧
    filepartPath "weights/alexnet.h5" = "weights/alexnet.h5.filepart" :=
  ⟨rfl, rfl⟩

/-- Claim C10 (amended): the temporary filepart name is determined by the
final local path alone — two invocations target the same temporary name
if and only if they download to the same final path — so a retry for the
same final path reuses (and overwrites) the leftover temporary file. -/
theorem c10_filepart_deterministic (p q : String) :
    filepartPath p = filepartPath q ↔ p = q := by
  constructor
  · intro h
    unfold filepartPath at h
    have hd : (p ++ ".filepart").data = (q ++ ".filepart").data := by rw [h]
    simp only [String.data_append] at hd
    exact String.ext (List.append_cancel_right hd)
  · intro h
    rw [h]
